import Mathlib

/-!
# Verification of the goladium slot-machine outcome engine

Shallow embedding of the core spin engine from `backend/server.py`:
symbol table, reel-distribution builder, wild-nerf reel-strip grid
sampler, payline evaluator and spin outcome calculator, together with
proofs of the specified properties.

Python floats are modelled by rationals, Python ints by integers.
`round(x, 2)` is modelled by `round2`; `int(x)` (truncation toward zero)
by `pyInt`.  Randomness (`random.randint`, `random.shuffle`,
`random.choice`) is modelled by explicit oracle parameters: a stop
position per reel, a permutation of `Fin 1000` per reel, and a choice
function for the uniform fallback.
-/

namespace Goladium

/-- Python `round(x, 2)`: round to two decimal places.  (Ties are rounded
half-up here; binary floats make exact half-cent ties non-representative,
and every property proved below uses the same rounding on both sides.) -/
def round2 (q : ℚ) : ℚ := ((round (q * 100) : ℤ) : ℚ) / 100

/-- Python `int(x)`: truncation toward zero (the floor for non-negative
arguments, the ceiling for negative ones). -/
def pyInt (q : ℚ) : ℤ := if 0 ≤ q then q.floor else q.ceil

/-- Per-symbol attributes, as stored in the `symbols` dict built by
`build_config_from_table`: `{"multiplier": ..., "tier": ..., "is_wild": ...}`. -/
structure SymAttr where
  multiplier : ℚ
  tier : String
  is_wild : Bool
deriving DecidableEq, Repr

/-- The `symbols` dict: symbol name → attributes, as an association list
in insertion order. -/
abbrev Symbols := List (String × SymAttr)

/-- Python `symbols.get(sym, {}).get("is_wild", False)`. -/
def isWild (symbols : Symbols) (s : String) : Bool :=
  ((List.lookup s symbols).map (fun a => a.is_wild)).getD false

/-- Python `symbols.get(sym, {}).get("multiplier", 1.0)`. -/
def getMult (symbols : Symbols) (s : String) : ℚ :=
  ((List.lookup s symbols).map (fun a => a.multiplier)).getD 1

/-- A grid cell coordinate `(row, col)` of the 4×4 grid. -/
abbrev Pos := Fin 4 × Fin 4

/-- A 4×4 grid of symbol names, indexed `grid r c` for `grid[r][c]`. -/
abbrev Grid := Fin 4 → Fin 4 → String

/-- `PAYLINES_4x4`: the 8 straight paylines (4 horizontal rows, 4 vertical
columns), each an ordered list of `(row, col)` coordinates; `none` for a
line number not in the dict. -/
def PAYLINES_4x4 (n : ℕ) : Option (List Pos) :=
  match n with
  | 1 => some [(0, 0), (0, 1), (0, 2), (0, 3)]
  | 2 => some [(1, 0), (1, 1), (1, 2), (1, 3)]
  | 3 => some [(2, 0), (2, 1), (2, 2), (2, 3)]
  | 4 => some [(3, 0), (3, 1), (3, 2), (3, 3)]
  | 5 => some [(0, 0), (1, 0), (2, 0), (3, 0)]
  | 6 => some [(0, 1), (1, 1), (2, 1), (3, 1)]
  | 7 => some [(0, 2), (1, 2), (2, 2), (3, 2)]
  | 8 => some [(0, 3), (1, 3), (2, 3), (3, 3)]
  | _ => none

/-- The result dict of a single winning `check_payline_win` call. -/
structure WinInfo where
  symbol : String
  matched_positions : List Pos
  line_length : ℕ
deriving DecidableEq, Repr

/-- `check_payline_win(grid, line_path, symbols)`: full-line win check.
Returns the win info, or `none` when any position holds a non-matching,
non-wild symbol.  The base symbol is the first non-wild symbol along the
line (`"wild"` if every position is wild). -/
def check_payline_win (grid : Grid) (line_path : List Pos) (symbols : Symbols) :
    Option WinInfo :=
  if line_path.length < 4 then none
  else
    let line_symbols := line_path.map (fun p => grid p.1 p.2)
    let base_symbol :=
      (line_symbols.find? (fun s => ¬ isWild symbols s)).getD "wild"
    if line_symbols.all (fun s => s = base_symbol ∨ isWild symbols s) then
      some { symbol := base_symbol
             matched_positions := line_path
             line_length := line_path.length }
    else none

/-- One row of the master slot configuration table
(`CLASSIC_SYMBOL_CONFIG` format): multiplier, tier, optional wild flag,
and percentage per reel 0..3. -/
structure SymCfg where
  mult : ℚ
  tier : String
  is_wild : Bool := false
  r0 : ℚ := 0
  r1 : ℚ := 0
  r2 : ℚ := 0
  r3 : ℚ := 0
deriving DecidableEq

/-- `cfg.get(f"r{reel_idx}", 0)`: the percentage of a symbol on a reel. -/
def pctOf (cfg : SymCfg) : Fin 4 → ℚ
  | 0 => cfg.r0
  | 1 => cfg.r1
  | 2 => cfg.r2
  | 3 => cfg.r3

/-- A configuration table: symbol name → row, in insertion order. -/
abbrev ConfigTable := List (String × SymCfg)

/-- A per-reel symbol → weight dict, in insertion order. -/
abbrev Dist := List (String × ℤ)

/-- Sum of the weights of a reel distribution
(`sum(reel_distributions[reel_idx].values())`). -/
def wsum (dist : Dist) : ℤ := (dist.map (fun e => e.2)).sum

/-- Dict update `d[k] += x`: add `x` to the value at the first occurrence
of key `k` (dict keys are unique, so the first occurrence is the entry). -/
def updateAdd (dist : Dist) (k : String) (x : ℤ) : Dist :=
  match dist with
  | [] => []
  | (k', v) :: rest =>
    if k' = k then (k', v + x) :: rest else (k', v) :: updateAdd rest k x

/-- Dict update `d[k] = v`: set the value at the first occurrence of key
`k` (no-op when the key is absent; used only when it is present). -/
def setFirst (dist : Dist) (k : String) (v : ℤ) : Dist :=
  match dist with
  | [] => []
  | (k', v') :: rest =>
    if k' = k then (k', v) :: rest else (k', v') :: setFirst rest k v

/-- Dict membership test `k in d`. -/
def hasKey (dist : Dist) (k : String) : Bool := (dist.lookup k).isSome

/-- `symbols` half of `build_config_from_table`: name → attributes. -/
def buildSymbols (table : ConfigTable) : Symbols :=
  table.map (fun e => (e.1, { multiplier := e.2.mult
                              tier := e.2.tier
                              is_wild := e.2.is_wild }))

/-- The raw per-reel weights of `build_config_from_table`, before
normalization: `weight = int(pct * 10)` for each symbol in table order. -/
def rawDist (table : ConfigTable) (reel_idx : Fin 4) : Dist :=
  table.map (fun e => (e.1, pyInt (pctOf e.2 reel_idx * 10)))

/-- The sum-to-1000 normalization of `build_config_from_table`: add the
shortfall to (or subtract the excess from) the `"orange"` entry. -/
def normalizeReel (dist : Dist) : Dist :=
  let total := wsum dist
  if total < 1000 then updateAdd dist "orange" (1000 - total)
  else if total > 1000 then updateAdd dist "orange" (-(total - 1000))
  else dist

/-- `reel_distributions` half of `build_config_from_table`: raw weights
normalized to sum exactly 1000. -/
def build_reel_distributions (table : ConfigTable) (reel_idx : Fin 4) : Dist :=
  normalizeReel (rawDist table reel_idx)

/-- `WILD_NERF_PROBABILITY = 0.1` (percent). -/
def WILD_NERF_PROBABILITY : ℚ := 1 / 10

/-- The wild-nerf adjustment applied in
`generate_random_grid_with_wild_nerf` to the nerfed reel's copied weight
map: if the reel has a `"wild"` entry, set its weight to
`int(WILD_NERF_PROBABILITY * 10)` and add the removed weight onto
`"orange"` (creating the `"orange"` entry if absent, per
`base_dist.get('orange', 0)`). -/
def applyNerf (dist : Dist) : Dist :=
  if hasKey dist "wild" then
    let original_wild_weight := (dist.lookup "wild").getD 0
    let nerf_weight := pyInt (WILD_NERF_PROBABILITY * 10)
    let weight_reduction := original_wild_weight - nerf_weight
    let d1 := setFirst dist "wild" nerf_weight
    if hasKey d1 "orange" then updateAdd d1 "orange" weight_reduction
    else d1 ++ [("orange", (0 : ℤ) + weight_reduction)]
  else dist

/-- `CLASSIC_SYMBOL_CONFIG`: the master configuration table for the
classic slot, in source order. -/
def CLASSIC_SYMBOL_CONFIG : ConfigTable :=
  [ ("orange",  { mult := 23/2, tier := "common",
                  r0 := 35, r1 := 38, r2 := 41, r3 := 44 }),
    ("lemon",   { mult := 24, tier := "common",
                  r0 := 28, r1 := 26, r2 := 24, r3 := 22 }),
    ("cherry",  { mult := 57, tier := "uncommon",
                  r0 := 18, r1 := 16, r2 := 14, r3 := 12 }),
    ("bar",     { mult := 140, tier := "rare",
                  r0 := 10, r1 := 9, r2 := 8, r3 := 7 }),
    ("wild",    { mult := 200, tier := "special", is_wild := true,
                  r0 := 3, r1 := 3, r2 := 3, r3 := 3 }),
    ("seven",   { mult := 500, tier := "jackpot",
                  r0 := 6/5, r1 := 9/10, r2 := 3/5, r3 := 2/5 }),
    ("diamond", { mult := 1000, tier := "jackpot",
                  r0 := 4/5, r1 := 3/5, r2 := 2/5, r3 := 1/5 }) ]

/-- `CLASSIC_SYMBOLS`: the symbols dict of the classic slot. -/
def CLASSIC_SYMBOLS : Symbols := buildSymbols CLASSIC_SYMBOL_CONFIG

/-- `CLASSIC_REEL_DISTRIBUTIONS`: the normalized reel distributions of
the classic slot. -/
def CLASSIC_REEL_DISTRIBUTIONS (reel_idx : Fin 4) : Dist :=
  build_reel_distributions CLASSIC_SYMBOL_CONFIG reel_idx

/-- The configured symbol names of the classic slot. -/
def classicNames : List String := CLASSIC_SYMBOL_CONFIG.map (fun e => e.1)

/-- One entry of the list returned by `validate_all_paylines`. -/
structure WinningPayline where
  line_number : ℕ
  line_path : List Pos
  symbol : String
  match_count : ℕ
  multiplier : ℚ
  line_type : String
  payout : ℚ := 0
deriving DecidableEq, Repr

/-- The body of the `validate_all_paylines` loop for one active line
number: skip (`continue`) when the line number is not in
`PAYLINES_4x4`, otherwise evaluate the line and build the winning
payline dict on a win. -/
def evalLine (grid : Grid) (symbols : Symbols) (line_num : ℕ) :
    Option WinningPayline :=
  match PAYLINES_4x4 line_num with
  | none => none
  | some line_path =>
    match check_payline_win grid line_path symbols with
    | none => none
    | some win_info =>
      some { line_number := line_num
             line_path := win_info.matched_positions
             symbol := win_info.symbol
             match_count := win_info.line_length
             multiplier := getMult symbols win_info.symbol
             line_type := if win_info.line_length = 5 then "horizontal"
                          else "vertical" }

/-- `validate_all_paylines(grid, active_lines, symbols)`: evaluate each
active line in order, silently skipping line numbers not in
`PAYLINES_4x4`, and collect the winning paylines. -/
def validate_all_paylines (grid : Grid) (active_lines : List ℕ)
    (symbols : Symbols) : List WinningPayline :=
  active_lines.filterMap (evalLine grid symbols)

/-- The dict returned by `calculate_slot_result`. -/
structure SpinResult where
  reels : Grid
  total_bet : ℚ
  win_amount : ℚ
  is_win : Bool
  winning_paylines : List WinningPayline
  is_jackpot : Bool

/-- `calculate_slot_result(bet_per_line, active_lines)`, Steps 2-3, with
the randomly generated grid passed in explicitly (Step 1 is the grid
sampler, modelled separately with its random draws as oracle
parameters). -/
def calculate_slot_result (bet_per_line : ℚ) (active_lines : List ℕ)
    (grid : Grid) (symbols : Symbols) : SpinResult :=
  let winning_paylines := validate_all_paylines grid active_lines symbols
  let total_bet := round2 (bet_per_line * active_lines.length)
  let paylines_with_payout := winning_paylines.map (fun wp =>
    { wp with payout := round2 (bet_per_line * wp.multiplier) })
  let total_win :=
    round2 ((paylines_with_payout.map (fun wp => wp.payout)).sum)
  { reels := grid
    total_bet := total_bet
    win_amount := total_win
    is_win := decide (total_win > 0)
    winning_paylines := paylines_with_payout
    is_jackpot := decide (total_win ≥ total_bet * 20) }

/-- The `reel_distributions` argument dict: reel index → weight map. -/
abbrev DistStore := List (ℕ × Dist)

/-- `strip = []; for symbol, weight: strip.extend([symbol] * weight)` —
a negative weight contributes nothing, as in Python. -/
def buildStripRaw (dist : Dist) : List String :=
  dist.flatMap (fun e => List.replicate e.2.toNat e.1)

/-- `while len(strip) < 1000: strip.append('orange'); strip = strip[:1000]`. -/
def padTruncate (strip : List String) : List String :=
  (strip ++ List.replicate (1000 - strip.length) "orange").take 1000

/-- `random.shuffle(strip)` with the drawn permutation made explicit:
position `i` of the shuffled strip holds element `σ i` of the input
(the strip has length 1000 when shuffled). -/
def shuffleStrip (σ : Equiv.Perm (Fin 1000)) (strip : List String) :
    List String :=
  List.ofFn (fun i : Fin 1000 => strip.getD (σ i).val "")

/-- The weight map used for reel `c` in
`generate_random_grid_with_wild_nerf`: a copy of the reel's base
distribution (`reel_distributions.get(col_idx,
reel_distributions.get(0, {})).copy()`), wild-nerfed when `c` is the
nerfed reel. -/
def distUsed (store : DistStore) (nerfed c : ℕ) : Dist :=
  let base_dist := (store.lookup c).getD ((store.lookup 0).getD [])
  if c = nerfed then applyNerf base_dist else base_dist

/-- The full (shuffled) strip built for reel `c`. -/
def reelStrip (store : DistStore) (nerfed : ℕ)
    (σ : ℕ → Equiv.Perm (Fin 1000)) (c : ℕ) : List String :=
  shuffleStrip (σ c) (padTruncate (buildStripRaw (distUsed store nerfed c)))

/-- The visible symbols of one reel:
`strip[(stop_position + row_idx) % len(strip)]` for each row. -/
def reelColumn (rows : ℕ) (strip : List String) (stop : ℕ) : List String :=
  (List.range rows).map (fun row_idx =>
    strip.getD ((stop + row_idx) % strip.length) "")

/-- The per-reel loop of `generate_random_grid_with_wild_nerf`, threading
the `reel_distributions` store explicitly.  Every write in the source
acts on the per-reel copy `base_dist`, so the store is passed through
unchanged. -/
def reelLoop (rows nerfed : ℕ) (σ : ℕ → Equiv.Perm (Fin 1000))
    (stops : ℕ → Fin 1000) :
    List ℕ → DistStore → List (List String) × DistStore
  | [], store => ([], store)
  | c :: cs, store =>
    let strip := reelStrip store nerfed σ c
    let col := reelColumn rows strip (stops c).val
    let rest := reelLoop rows nerfed σ stops cs store
    (col :: rest.1, rest.2)

/-- `generate_random_grid_with_wild_nerf(symbols, rows, cols,
reel_distributions)`, with the random draws as oracle parameters:
`nerfed` for `random.randint(0, cols - 1)`, `σ c` for the shuffle of
reel `c`'s strip, `stops c : Fin 1000` for
`random.randint(0, len(strip) - 1)` (the strip length is 1000), and
`choice` for `random.choice` in the uniform fallback.  Returns the grid
together with the (unchanged) distribution store. -/
def generate_random_grid_with_wild_nerf (symbols : Symbols) (rows cols : ℕ)
    (store : DistStore) (nerfed : ℕ) (σ : ℕ → Equiv.Perm (Fin 1000))
    (stops : ℕ → Fin 1000) (choice : ℕ → ℕ → String) :
    List (List String) × DistStore :=
  if store = [] then
    ((List.range rows).map (fun r =>
      (List.range cols).map (fun c => choice r c)), store)
  else
    let res := reelLoop rows nerfed σ stops (List.range cols) store
    ((List.range rows).map (fun r =>
      (List.range cols).map (fun c => (res.1.getD c []).getD r "")), res.2)

/-- The classic slot's `reel_distributions` dict as a store. -/
def classicStore : DistStore :=
  [ (0, CLASSIC_REEL_DISTRIBUTIONS 0), (1, CLASSIC_REEL_DISTRIBUTIONS 1),
    (2, CLASSIC_REEL_DISTRIBUTIONS 2), (3, CLASSIC_REEL_DISTRIBUTIONS 3) ]

/-! ## Basic lemmas about the embedded operations -/

lemma ratFloor_eq (q : ℚ) : q.floor = ⌊q⌋ := rfl

lemma pyInt_nonneg (q : ℚ) (h : 0 ≤ q) : pyInt q = ⌊q⌋ := by
  rw [pyInt, if_pos h, ratFloor_eq]

/-- The keys of a dict are unchanged by `updateAdd`. -/
lemma keys_updateAdd (dist : Dist) (k : String) (x : ℤ) :
    (updateAdd dist k x).map (fun e => e.1) = dist.map (fun e => e.1) := by
  induction dist with
  | nil => rfl
  | cons e rest ih =>
    by_cases h : e.1 = k <;> simp [updateAdd, h, ih]

/-- `d[k] += x` adds `x` to the weight sum when `k` is a key of `d`. -/
lemma wsum_updateAdd (dist : Dist) (k : String) (x : ℤ)
    (h : k ∈ dist.map (fun e => e.1)) :
    wsum (updateAdd dist k x) = wsum dist + x := by
  induction dist with
  | nil => simp at h
  | cons e rest ih =>
    by_cases he : e.1 = k
    · simp [updateAdd, he, wsum]
      ring
    · have h' : k ∈ rest.map (fun e => e.1) := by
        simp only [List.map_cons, List.mem_cons] at h
        rcases h with h | h
        · exact absurd h.symm he
        · exact h
      have ih' := ih h'
      simp only [updateAdd, if_neg he, wsum, List.map_cons, List.sum_cons]
      simp only [wsum] at ih'
      rw [ih']
      ring

/-- `d[k] = v` replaces the looked-up value in the weight sum when `k`
is a key of `d`. -/
lemma wsum_setFirst (dist : Dist) (k : String) (v : ℤ)
    (h : hasKey dist k = true) :
    wsum (setFirst dist k v) = wsum dist - (dist.lookup k).getD 0 + v := by
  induction dist with
  | nil => simp [hasKey] at h
  | cons e rest ih =>
    by_cases he : e.1 = k
    · cases e
      subst he
      simp [setFirst, wsum, List.lookup]
      ring
    · cases e with
    | mk k' v' =>
      have hk : ¬ (k == k') := by
        simp only [beq_iff_eq]
        intro hh
        exact he hh.symm
      simp only [hasKey, List.lookup, hk] at h
      simp only [setFirst, if_neg he, wsum, List.map_cons, List.sum_cons,
        List.lookup, hk]
      have := ih (by simpa [hasKey] using h)
      simp only [wsum] at this
      rw [this]
      ring

/-- The keys of a dict are unchanged by `setFirst`. -/
lemma keys_setFirst (dist : Dist) (k : String) (v : ℤ) :
    (setFirst dist k v).map (fun e => e.1) = dist.map (fun e => e.1) := by
  induction dist with
  | nil => rfl
  | cons e rest ih =>
    by_cases h : e.1 = k <;> simp [setFirst, h, ih]

/-- `hasKey` is membership in the key list. -/
lemma hasKey_iff (dist : Dist) (k : String) :
    hasKey dist k = true ↔ k ∈ dist.map (fun e => e.1) := by
  induction dist with
  | nil => simp [hasKey, List.lookup]
  | cons e rest ih =>
    cases e with
    | mk k' v' =>
      by_cases h : k = k'
      · simp [hasKey, List.lookup, h]
      · have hk : ¬ (k == k') := by simpa using h
        simp only [hasKey, List.lookup, hk, List.map_cons, List.mem_cons]
        rw [← hasKey, ih]
        simp [h]

/-- `hasKey` is invariant under `setFirst`. -/
lemma hasKey_setFirst (dist : Dist) (k k' : String) (v : ℤ) :
    hasKey (setFirst dist k v) k' = hasKey dist k' := by
  have h1 := hasKey_iff (setFirst dist k v) k'
  have h2 := hasKey_iff dist k'
  rw [keys_setFirst] at h1
  by_cases h : k' ∈ dist.map (fun e => e.1)
  · rw [h1.mpr h, h2.mpr h]
  · have e1 : hasKey (setFirst dist k v) k' ≠ true := fun hh => h (h1.mp hh)
    have e2 : hasKey dist k' ≠ true := fun hh => h (h2.mp hh)
    rw [Bool.eq_false_iff.mpr e1, Bool.eq_false_iff.mpr e2]

/-- `setFirst` does not change the looked-up value at other keys. -/
lemma lookup_setFirst_ne (dist : Dist) (k k' : String) (v : ℤ)
    (h : k' ≠ k) : (setFirst dist k v).lookup k' = dist.lookup k' := by
  induction dist with
  | nil => rfl
  | cons e rest ih =>
    cases e with
    | mk ek ev =>
      by_cases he : ek = k
      · subst he
        have : ¬ (k' == ek) := by simpa using h
        simp [setFirst, List.lookup, this]
      · by_cases he' : k' = ek
        · subst he'
          simp [setFirst, he, List.lookup]
        · have h1 : ¬ (k' == ek) := by simpa using he'
          simp [setFirst, he, List.lookup, h1, ih]

/-- The wild-nerf adjustment never changes a reel's weight sum. -/
lemma wsum_applyNerf (dist : Dist) : wsum (applyNerf dist) = wsum dist := by
  rw [applyNerf]
  by_cases hw : hasKey dist "wild" = true
  · rw [if_pos hw]
    simp only
    set ow := (dist.lookup "wild").getD 0 with how
    have hnerf : pyInt (WILD_NERF_PROBABILITY * 10) = 1 := by
      rw [pyInt_nonneg _ (by norm_num [WILD_NERF_PROBABILITY])]
      norm_num [WILD_NERF_PROBABILITY]
    rw [hnerf]
    have hset : wsum (setFirst dist "wild" 1) = wsum dist - ow + 1 :=
      wsum_setFirst dist "wild" 1 hw
    by_cases ho : hasKey (setFirst dist "wild" 1) "orange" = true
    · rw [if_pos ho]
      rw [wsum_updateAdd _ _ _ ((hasKey_iff _ _).mp ho), hset]
      ring
    · rw [if_neg (by simpa using ho)]
      simp only [wsum, List.map_append, List.sum_append, List.map_cons,
        List.map_nil, List.sum_cons, List.sum_nil]
      have : wsum (setFirst dist "wild" 1) = wsum dist - ow + 1 := hset
      simp only [wsum] at this
      rw [this]
      ring
  · rw [if_neg (by simpa using hw)]

/-- The raw distribution of a reel has the same keys as the table. -/
lemma keys_rawDist (table : ConfigTable) (i : Fin 4) :
    (rawDist table i).map (fun e => e.1) = table.map (fun e => e.1) := by
  simp [rawDist]

/-- The normalization step forces the weight sum to exactly 1000 when
the table contains the filler symbol `"orange"`. -/
lemma wsum_normalizeReel (dist : Dist)
    (h : "orange" ∈ dist.map (fun e => e.1)) :
    wsum (normalizeReel dist) = 1000 := by
  rw [normalizeReel]
  by_cases h1 : wsum dist < 1000
  · rw [if_pos h1, wsum_updateAdd _ _ _ h]
    ring
  · rw [if_neg h1]
    by_cases h2 : wsum dist > 1000
    · rw [if_pos h2, wsum_updateAdd _ _ _ h]
      ring
    · rw [if_neg h2]
      omega

/-! ## Concrete evaluation of the classic configuration -/

lemma rawDist_classic_0 : rawDist CLASSIC_SYMBOL_CONFIG 0 =
    [("orange", 350), ("lemon", 280), ("cherry", 180), ("bar", 100),
     ("wild", 30), ("seven", 12), ("diamond", 8)] := by
  simp only [rawDist, CLASSIC_SYMBOL_CONFIG, List.map_cons, List.map_nil, pctOf]
  norm_num [pyInt_nonneg]

lemma rawDist_classic_1 : rawDist CLASSIC_SYMBOL_CONFIG 1 =
    [("orange", 380), ("lemon", 260), ("cherry", 160), ("bar", 90),
     ("wild", 30), ("seven", 9), ("diamond", 6)] := by
  simp only [rawDist, CLASSIC_SYMBOL_CONFIG, List.map_cons, List.map_nil, pctOf]
  norm_num [pyInt_nonneg]

lemma rawDist_classic_2 : rawDist CLASSIC_SYMBOL_CONFIG 2 =
    [("orange", 410), ("lemon", 240), ("cherry", 140), ("bar", 80),
     ("wild", 30), ("seven", 6), ("diamond", 4)] := by
  simp only [rawDist, CLASSIC_SYMBOL_CONFIG, List.map_cons, List.map_nil, pctOf]
  norm_num [pyInt_nonneg]

lemma rawDist_classic_3 : rawDist CLASSIC_SYMBOL_CONFIG 3 =
    [("orange", 440), ("lemon", 220), ("cherry", 120), ("bar", 70),
     ("wild", 30), ("seven", 4), ("diamond", 2)] := by
  simp only [rawDist, CLASSIC_SYMBOL_CONFIG, List.map_cons, List.map_nil, pctOf]
  norm_num [pyInt_nonneg]

lemma classicDist_0 : CLASSIC_REEL_DISTRIBUTIONS 0 =
    [("orange", 390), ("lemon", 280), ("cherry", 180), ("bar", 100),
     ("wild", 30), ("seven", 12), ("diamond", 8)] := by
  rw [CLASSIC_REEL_DISTRIBUTIONS, build_reel_distributions, rawDist_classic_0]
  decide

lemma classicDist_1 : CLASSIC_REEL_DISTRIBUTIONS 1 =
    [("orange", 445), ("lemon", 260), ("cherry", 160), ("bar", 90),
     ("wild", 30), ("seven", 9), ("diamond", 6)] := by
  rw [CLASSIC_REEL_DISTRIBUTIONS, build_reel_distributions, rawDist_classic_1]
  decide

lemma classicDist_2 : CLASSIC_REEL_DISTRIBUTIONS 2 =
    [("orange", 500), ("lemon", 240), ("cherry", 140), ("bar", 80),
     ("wild", 30), ("seven", 6), ("diamond", 4)] := by
  rw [CLASSIC_REEL_DISTRIBUTIONS, build_reel_distributions, rawDist_classic_2]
  decide

lemma classicDist_3 : CLASSIC_REEL_DISTRIBUTIONS 3 =
    [("orange", 554), ("lemon", 220), ("cherry", 120), ("bar", 70),
     ("wild", 30), ("seven", 4), ("diamond", 2)] := by
  rw [CLASSIC_REEL_DISTRIBUTIONS, build_reel_distributions, rawDist_classic_3]
  decide

/-! ## Payline evaluator lemmas -/

/-- `find?` returns the head of the filtered list. -/
lemma find?_eq_head_filter {α : Type} (p : α → Bool) (l : List α) :
    l.find? p = (l.filter p).head? := by
  induction l with
  | nil => rfl
  | cons a rest ih =>
    rw [List.find?_cons, List.filter_cons]
    cases hp : p a with
    | false => simpa [hp] using ih
    | true => simp [hp]

/-- Every configured payline has exactly 4 coordinates. -/
lemma paylines_length (n : ℕ) (path : List Pos)
    (h : PAYLINES_4x4 n = some path) : path.length = 4 := by
  rcases n with _ | _ | _ | _ | _ | _ | _ | _ | _ | m <;>
    first
      | exact Option.noConfusion h
      | (injection h with h2; rw [← h2]; rfl)

/-- A configured line number lies in `1..8`. -/
lemma paylines_range (n : ℕ) (path : List Pos)
    (h : PAYLINES_4x4 n = some path) : 1 ≤ n ∧ n ≤ 8 := by
  rcases n with _ | _ | _ | _ | _ | _ | _ | _ | _ | m <;>
    first
      | exact Option.noConfusion h
      | omega

/-- A winning `check_payline_win` call echoes back the line path and its
length, and the win holds position-wise. -/
lemma check_payline_win_some (grid : Grid) (path : List Pos)
    (symbols : Symbols) (w : WinInfo)
    (h : check_payline_win grid path symbols = some w) :
    w.matched_positions = path ∧ w.line_length = path.length := by
  rw [check_payline_win] at h
  by_cases hl : path.length < 4
  · rw [if_pos hl] at h
    exact absurd h (by simp)
  · rw [if_neg hl] at h
    simp only at h
    by_cases hall : (path.map (fun p => grid p.1 p.2)).all
        (fun s => s = ((path.map (fun p => grid p.1 p.2)).find?
          (fun s => ¬ isWild symbols s)).getD "wild" ∨ isWild symbols s) = true
    · rw [if_pos hall] at h
      cases h
      exact ⟨rfl, rfl⟩
    · rw [if_neg hall] at h
      exact absurd h (by simp)

/-- Modelled from the spec: the base symbol of a line is the first
non-wild symbol of the sequence read along the line, or `"wild"` when
every symbol on the line is wild. -/
def specBaseSymbol (line_symbols : List String) (symbols : Symbols) : String :=
  match line_symbols.filter (fun s => ¬ isWild symbols s) with
  | [] => "wild"
  | b :: _ => b

/-- Modelled from the spec: the line wins iff every position's symbol
equals the base symbol or is wild. -/
def specLineWins (grid : Grid) (path : List Pos) (symbols : Symbols) : Prop :=
  ∀ p ∈ path,
    grid p.1 p.2 = specBaseSymbol (path.map (fun q => grid q.1 q.2)) symbols ∨
    isWild symbols (grid p.1 p.2) = true

/-- The code's base symbol coincides with the spec's. -/
lemma base_symbol_eq_spec (line_symbols : List String) (symbols : Symbols) :
    (line_symbols.find? (fun s => ¬ isWild symbols s)).getD "wild" =
      specBaseSymbol line_symbols symbols := by
  rw [specBaseSymbol, find?_eq_head_filter]
  cases line_symbols.filter (fun s => ¬ isWild symbols s) <;> rfl

/-- The win decision of `check_payline_win`, unfolded to a position-wise
condition over the spec's base symbol. -/
lemma check_payline_win_isSome (grid : Grid) (path : List Pos)
    (symbols : Symbols) (hlen : ¬ path.length < 4) :
    (check_payline_win grid path symbols).isSome = true ↔
      ∀ s ∈ path.map (fun p => grid p.1 p.2),
        s = specBaseSymbol (path.map (fun p => grid p.1 p.2)) symbols ∨
        isWild symbols s = true := by
  rw [check_payline_win, if_neg hlen]
  simp only [base_symbol_eq_spec]
  by_cases hall : (path.map (fun p => grid p.1 p.2)).all
      (fun s => s = specBaseSymbol (path.map (fun p => grid p.1 p.2)) symbols
        ∨ isWild symbols s) = true
  · rw [if_pos hall]
    simp only [Option.isSome_some, true_iff]
    intro s hs
    simpa using List.all_eq_true.mp hall s hs
  · rw [if_neg hall]
    simp only [Option.isSome_none, Bool.false_eq_true, false_iff]
    intro hforall
    apply hall
    rw [List.all_eq_true]
    intro s hs
    simpa using hforall s hs

/-- C1: on a 4×4 grid of configured symbol names and a configured
payline, `check_payline_win` reports a win iff every position's symbol
equals the base symbol (first non-wild along the line, `"wild"` if all
wild) or is itself wild. -/
theorem C1_payline_win_iff (grid : Grid) (n : ℕ) (path : List Pos)
    (hn : PAYLINES_4x4 n = some path)
    (hg : ∀ r c : Fin 4, grid r c ∈ classicNames) :
    (check_payline_win grid path CLASSIC_SYMBOLS).isSome = true ↔
      specLineWins grid path CLASSIC_SYMBOLS := by
  have hlen := paylines_length n path hn
  rw [check_payline_win_isSome grid path CLASSIC_SYMBOLS (by omega),
    specLineWins]
  constructor
  · intro h p hp
    simpa using h (grid p.1 p.2) (List.mem_map_of_mem _ hp)
  · intro h s hs
    rcases List.mem_map.mp hs with ⟨p, hp, rfl⟩
    exact h p hp

/-- `evalLine` returns `none` on an unconfigured line number. -/
lemma evalLine_none (grid : Grid) (symbols : Symbols) (n : ℕ)
    (h : PAYLINES_4x4 n = none) : evalLine grid symbols n = none := by
  simp [evalLine, h]

/-- Structure of every member of the `validate_all_paylines` result. -/
lemma validate_mem (grid : Grid) (active : List ℕ) (symbols : Symbols)
    (w : WinningPayline) (h : w ∈ validate_all_paylines grid active symbols) :
    ∃ n path wi, n ∈ active ∧ PAYLINES_4x4 n = some path ∧
      check_payline_win grid path symbols = some wi ∧
      w = { line_number := n, line_path := wi.matched_positions,
            symbol := wi.symbol, match_count := wi.line_length,
            multiplier := getMult symbols wi.symbol,
            line_type := if wi.line_length = 5 then "horizontal"
                         else "vertical" } := by
  rw [validate_all_paylines] at h
  rcases List.mem_filterMap.mp h with ⟨n, hn, hf⟩
  rw [evalLine] at hf
  cases hP : PAYLINES_4x4 n with
  | none => rw [hP] at hf; exact absurd hf (by simp)
  | some path =>
    rw [hP] at hf
    simp only at hf
    cases hC : check_payline_win grid path symbols with
    | none => rw [hC] at hf; exact absurd hf (by simp)
    | some wi =>
      rw [hC] at hf
      simp only [Option.some_inj] at hf
      exact ⟨n, path, wi, hn, hP, hC, hf.symm⟩

/-- C9: every winning payline of the 4×4 configuration has
`match_count = 4` and carries exactly the configured 4-coordinate path
of its line number, which is one of the 8 configured lines. -/
theorem C9_winning_payline_shape (grid : Grid) (active : List ℕ)
    (wp : WinningPayline)
    (h : wp ∈ validate_all_paylines grid active CLASSIC_SYMBOLS) :
    wp.match_count = 4 ∧ PAYLINES_4x4 wp.line_number = some wp.line_path ∧
    wp.line_path.length = 4 ∧ 1 ≤ wp.line_number ∧ wp.line_number ≤ 8 := by
  rcases validate_mem _ _ _ _ h with ⟨n, path, wi, hn, hP, hC, hw⟩
  rcases check_payline_win_some _ _ _ _ hC with ⟨hm, hl⟩
  have hlen := paylines_length n path hP
  have hrange := paylines_range n path hP
  subst hw
  exact ⟨by simp [hl, hlen], by simp [hm, hP], by simp [hm, hlen],
    hrange.1, hrange.2⟩

/-- C10: `validate_all_paylines` silently skips unknown line IDs: the
result equals the result on the sub-list of configured IDs, and no
winning entry carries an unconfigured ID. -/
theorem C10_unknown_lines_skipped (grid : Grid) (active : List ℕ)
    (symbols : Symbols) :
    validate_all_paylines grid active symbols =
      validate_all_paylines grid
        (active.filter (fun n => (PAYLINES_4x4 n).isSome)) symbols ∧
    ∀ wp ∈ validate_all_paylines grid active symbols,
      (PAYLINES_4x4 wp.line_number).isSome = true := by
  constructor
  · induction active with
    | nil => rfl
    | cons n rest ih =>
      rw [validate_all_paylines, List.filterMap_cons, List.filter_cons]
      cases hP : PAYLINES_4x4 n with
      | none =>
        rw [evalLine_none grid symbols n hP]
        simpa [validate_all_paylines] using ih
      | some path =>
        cases hE : evalLine grid symbols n <;>
          simpa [validate_all_paylines, List.filterMap_cons, hE] using ih
  · intro wp h
    rcases validate_mem _ _ _ _ h with ⟨n, path, wi, hn, hP, hC, hw⟩
    subst hw
    simp [hP]

/-! ## Spin outcome calculator: claims C2, C3 -/

/-- C2: totals of `calculate_slot_result` — `total_bet` is the rounded
product of bet and line count, `win_amount` the rounded sum of the
winning lines' payouts, `is_win` iff the win amount is positive, and
`is_jackpot` iff the win amount reaches 20× the total bet. -/
theorem C2_spin_totals (bet_per_line : ℚ) (hbet : 0 < bet_per_line)
    (active : List ℕ) (hne : active ≠ [])
    (hval : ∀ n ∈ active, (PAYLINES_4x4 n).isSome = true) (grid : Grid) :
    (calculate_slot_result bet_per_line active grid CLASSIC_SYMBOLS).total_bet
      = round2 (bet_per_line * active.length) ∧
    (calculate_slot_result bet_per_line active grid CLASSIC_SYMBOLS).win_amount
      = round2 (((calculate_slot_result bet_per_line active grid
          CLASSIC_SYMBOLS).winning_paylines.map (fun wp => wp.payout)).sum) ∧
    ((calculate_slot_result bet_per_line active grid
        CLASSIC_SYMBOLS).is_win = true ↔
      (calculate_slot_result bet_per_line active grid
        CLASSIC_SYMBOLS).win_amount > 0) ∧
    ((calculate_slot_result bet_per_line active grid
        CLASSIC_SYMBOLS).is_jackpot = true ↔
      (calculate_slot_result bet_per_line active grid
        CLASSIC_SYMBOLS).win_amount ≥
        20 * (calculate_slot_result bet_per_line active grid
          CLASSIC_SYMBOLS).total_bet) := by
  refine ⟨rfl, rfl, ?_, ?_⟩
  · rw [show (calculate_slot_result bet_per_line active grid
        CLASSIC_SYMBOLS).is_win = decide
          ((calculate_slot_result bet_per_line active grid
            CLASSIC_SYMBOLS).win_amount > 0) from rfl,
      decide_eq_true_iff]
  · rw [show (calculate_slot_result bet_per_line active grid
        CLASSIC_SYMBOLS).is_jackpot = decide
          ((calculate_slot_result bet_per_line active grid
            CLASSIC_SYMBOLS).win_amount ≥
            (calculate_slot_result bet_per_line active grid
              CLASSIC_SYMBOLS).total_bet * 20) from rfl,
      decide_eq_true_iff, mul_comm]

/-- C3: every winning payline's recorded payout is
`round(bet_per_line * multiplier, 2)` where the multiplier is the
winning base symbol's configured multiplier. -/
theorem C3_payout (bet_per_line : ℚ) (active : List ℕ) (grid : Grid)
    (wp : WinningPayline)
    (h : wp ∈ (calculate_slot_result bet_per_line active grid
        CLASSIC_SYMBOLS).winning_paylines) :
    wp.payout = round2 (bet_per_line * wp.multiplier) ∧
    wp.multiplier = getMult CLASSIC_SYMBOLS wp.symbol := by
  have h' : wp ∈ (validate_all_paylines grid active CLASSIC_SYMBOLS).map
      (fun w => { w with payout := round2 (bet_per_line * w.multiplier) }) :=
    h
  rcases List.mem_map.mp h' with ⟨w, hw, rfl⟩
  rcases validate_mem _ _ _ _ hw with ⟨n, path, wi, hn, hP, hC, hwEq⟩
  subst hwEq
  exact ⟨rfl, rfl⟩

/-! ## Reel distribution builder: claims C4, C5 -/

/-- C4: for a table containing the filler symbol `"orange"`, every
reel's weights sum to exactly 1000 after normalization, and the per-spin
wild-nerf adjustment preserves that sum. -/
theorem C4_weight_sum (table : ConfigTable)
    (h : "orange" ∈ table.map (fun e => e.1)) (i : Fin 4) :
    wsum (build_reel_distributions table i) = 1000 ∧
    wsum (applyNerf (build_reel_distributions table i)) = 1000 := by
  have hkeys : "orange" ∈ (rawDist table i).map (fun e => e.1) := by
    rw [keys_rawDist]
    exact h
  have h1 : wsum (build_reel_distributions table i) = 1000 := by
    rw [build_reel_distributions]
    exact wsum_normalizeReel _ hkeys
  exact ⟨h1, by rw [wsum_applyNerf]; exact h1⟩

/-- The raw weight looked up for a table symbol. -/
lemma lookup_rawDist (table : ConfigTable) (n : String) (cfg : SymCfg)
    (i : Fin 4) (h : List.lookup n table = some cfg) :
    List.lookup n (rawDist table i) = some (pyInt (pctOf cfg i * 10)) := by
  induction table with
  | nil => exact Option.noConfusion h
  | cons e rest ih =>
    cases e with
    | mk k c =>
      cases hbeq : (n == k) with
      | true =>
        simp only [List.lookup, hbeq] at h
        simp only [Option.some_inj] at h
        subst h
        simp only [rawDist, List.map_cons, List.lookup, hbeq]
      | false =>
        simp only [List.lookup, hbeq] at h
        simp only [rawDist, List.map_cons, List.lookup, hbeq]
        exact ih h

/-- C5 (amended): the pre-normalization weight is the truncation toward
zero of `percentage * 10` — equivalently its floor for a non-negative
percentage — not its rounding. -/
theorem C5_raw_weight_floor (table : ConfigTable) (n : String)
    (cfg : SymCfg) (i : Fin 4) (h : List.lookup n table = some cfg)
    (hpos : 0 ≤ pctOf cfg i) :
    List.lookup n (rawDist table i) = some ⌊pctOf cfg i * 10⌋ := by
  rw [lookup_rawDist table n cfg i h,
    pyInt_nonneg _ (mul_nonneg hpos (by norm_num))]

/-- Modelled from the spec for comparison: the claimed weight
conversion `round(percentage * 10)`. -/
def specRoundWeight (percentage : ℚ) : ℤ := round (percentage * 10)

/-- A one-symbol table with percentage 2.75 on reel 0, on which the
code's `int(pct * 10)` (27) differs from the spec's claimed
`round(pct * 10)` (28). -/
def roundVsIntTable : ConfigTable :=
  [("orange", { mult := 1, tier := "common", r0 := 11/4 })]

/-- C5 counterexample: on `roundVsIntTable`, the weight assigned by the
code is 27, while `round(percentage * 10)` is 28, so the claim as
stated is false. -/
theorem C5_counterexample :
    List.lookup "orange" (rawDist roundVsIntTable 0) ≠
      some (specRoundWeight (11/4)) ∧
    List.lookup "orange" (rawDist roundVsIntTable 0) = some 27 ∧
    specRoundWeight (11/4) = 28 := by
  have h27 : pyInt ((11/4 : ℚ) * 10) = 27 := by
    rw [pyInt_nonneg _ (by norm_num),
      show (11/4 : ℚ) * 10 = 55/2 by norm_num, Int.floor_eq_iff]
    constructor <;> norm_num
  have hcode : List.lookup "orange" (rawDist roundVsIntTable 0) =
      some 27 := by
    rw [lookup_rawDist roundVsIntTable "orange"
      { mult := 1, tier := "common", r0 := 11/4 } 0 rfl]
    rw [show pctOf { mult := 1, tier := "common", r0 := 11/4 }
      (0 : Fin 4) = 11/4 from rfl, h27]
  have hspec : specRoundWeight (11/4) = 28 := by
    rw [specRoundWeight, round_eq,
      show (11/4 : ℚ) * 10 + 1/2 = ((28 : ℤ) : ℚ) by norm_num,
      Int.floor_intCast]
  refine ⟨?_, hcode, hspec⟩
  rw [hcode, hspec]
  simp

/-! ## Grid sampler: claims C6, C7, C8 -/

/-- Padding/truncation forces every strip to length exactly 1000. -/
lemma length_padTruncate (l : List String) : (padTruncate l).length = 1000 := by
  simp only [padTruncate, List.length_take, List.length_append,
    List.length_replicate]
  omega

/-- The shuffled strip has length 1000. -/
lemma length_shuffleStrip (σ : Equiv.Perm (Fin 1000)) (l : List String) :
    (shuffleStrip σ l).length = 1000 := by
  rw [shuffleStrip, List.length_ofFn]

/-- Every reel strip built per spin has length exactly 1000. -/
lemma length_reelStrip (store : DistStore) (nerfed : ℕ)
    (σ : ℕ → Equiv.Perm (Fin 1000)) (c : ℕ) :
    (reelStrip store nerfed σ c).length = 1000 :=
  length_shuffleStrip _ _

/-- The columns produced by the reel loop. -/
lemma reelLoop_fst (rows nerfed : ℕ) (σ : ℕ → Equiv.Perm (Fin 1000))
    (stops : ℕ → Fin 1000) (cs : List ℕ) (store : DistStore) :
    (reelLoop rows nerfed σ stops cs store).1 =
      cs.map (fun c =>
        reelColumn rows (reelStrip store nerfed σ c) (stops c).val) := by
  induction cs with
  | nil => rfl
  | cons c rest ih => simp [reelLoop, ih]

/-- The reel loop passes the distribution store through unchanged. -/
lemma reelLoop_snd (rows nerfed : ℕ) (σ : ℕ → Equiv.Perm (Fin 1000))
    (stops : ℕ → Fin 1000) (cs : List ℕ) (store : DistStore) :
    (reelLoop rows nerfed σ stops cs store).2 = store := by
  induction cs with
  | nil => rfl
  | cons c rest ih => simp [reelLoop, ih]

/-- Indexing a mapped range. -/
lemma getD_map_range {α : Type} (f : ℕ → α) (d : α) (n i : ℕ) (h : i < n) :
    ((List.range n).map f).getD i d = f i := by
  rw [List.getD_eq_getElem?_getD, List.getElem?_map, List.getElem?_range h]
  rfl

/-- C6: in the reel-strip sampling path, the visible cell in row `r` of
reel `c` is `strip[(stop_c + r) % len(strip)]` over that reel's
length-1000 strip (so `random.randint(0, len(strip) - 1)` draws the
stop uniformly from `[0, 999]`, independently per reel), assembled
row-major. -/
theorem C6_grid_from_strips (symbols : Symbols) (rows cols : ℕ)
    (store : DistStore) (nerfed : ℕ) (σ : ℕ → Equiv.Perm (Fin 1000))
    (stops : ℕ → Fin 1000) (choice : ℕ → ℕ → String)
    (hst : store ≠ []) (r c : ℕ) (hr : r < rows) (hc : c < cols) :
    (((generate_random_grid_with_wild_nerf symbols rows cols store nerfed σ
        stops choice).1.getD r []).getD c "") =
      (reelStrip store nerfed σ c).getD
        (((stops c).val + r) % (reelStrip store nerfed σ c).length) "" ∧
    (reelStrip store nerfed σ c).length = 1000 := by
  constructor
  · rw [generate_random_grid_with_wild_nerf, if_neg hst]
    simp only
    rw [getD_map_range _ _ rows r hr, getD_map_range _ _ cols c hc,
      reelLoop_fst, getD_map_range _ _ cols c hc]
    rw [reelColumn, getD_map_range _ _ rows r hr]
  · exact length_reelStrip store nerfed σ c

/-- C8: `generate_random_grid_with_wild_nerf` returns the distribution
store unchanged — the nerf adjustment acts on a per-reel copy, so the
base `reel_distributions` mapping is never mutated. -/
theorem C8_no_mutation (symbols : Symbols) (rows cols : ℕ)
    (store : DistStore) (nerfed : ℕ) (σ : ℕ → Equiv.Perm (Fin 1000))
    (stops : ℕ → Fin 1000) (choice : ℕ → ℕ → String) :
    (generate_random_grid_with_wild_nerf symbols rows cols store nerfed σ
      stops choice).2 = store := by
  rw [generate_random_grid_with_wild_nerf]
  by_cases h : store = []
  · rw [if_pos h]
  · rw [if_neg h]
    exact reelLoop_snd rows nerfed σ stops (List.range cols) store

/-- `int(WILD_NERF_PROBABILITY * 10) = 1`: the nerfed wild weight. -/
lemma nerf_weight_one : pyInt (WILD_NERF_PROBABILITY * 10) = 1 := by
  rw [pyInt_nonneg _ (by norm_num [WILD_NERF_PROBABILITY]),
    show WILD_NERF_PROBABILITY * 10 = ((1 : ℤ) : ℚ) by
      norm_num [WILD_NERF_PROBABILITY],
    Int.floor_intCast]

/-- `updateAdd` at one key does not change the value at another key. -/
lemma lookup_updateAdd_ne (dist : Dist) (k k' : String) (x : ℤ)
    (h : k' ≠ k) : (updateAdd dist k x).lookup k' = dist.lookup k' := by
  induction dist with
  | nil => rfl
  | cons e rest ih =>
    cases e with
    | mk ek ev =>
      by_cases he : ek = k
      · subst he
        have hne : ¬ (k' == ek) := by simpa using h
        simp [updateAdd, List.lookup, hne]
      · by_cases he' : k' = ek
        · subst he'
          simp [updateAdd, he, List.lookup]
        · have h1 : ¬ (k' == ek) := by simpa using he'
          simp [updateAdd, he, List.lookup, h1, ih]

/-- `d[k] += x` makes the looked-up value the old value plus `x`. -/
lemma lookup_updateAdd_eq (dist : Dist) (k : String) (x : ℤ)
    (h : hasKey dist k = true) :
    (updateAdd dist k x).lookup k = some ((dist.lookup k).getD 0 + x) := by
  induction dist with
  | nil => simp [hasKey, List.lookup] at h
  | cons e rest ih =>
    cases e with
    | mk ek ev =>
      by_cases he : ek = k
      · subst he
        simp [updateAdd, List.lookup]
      · have h1 : ¬ (k == ek) := by
          simp only [beq_iff_eq]
          intro hh
          exact he hh.symm
        simp only [hasKey, List.lookup, h1] at h
        simp only [updateAdd, if_neg he, List.lookup, h1]
        exact ih (by simpa [hasKey] using h)

/-- `d[k] = v` makes the looked-up value `v`. -/
lemma lookup_setFirst_eq (dist : Dist) (k : String) (v : ℤ)
    (h : hasKey dist k = true) :
    (setFirst dist k v).lookup k = some v := by
  induction dist with
  | nil => simp [hasKey, List.lookup] at h
  | cons e rest ih =>
    cases e with
    | mk ek ev =>
      by_cases he : ek = k
      · subst he
        simp [setFirst, List.lookup]
      · have h1 : ¬ (k == ek) := by
          simp only [beq_iff_eq]
          intro hh
          exact he hh.symm
        simp only [hasKey, List.lookup, h1] at h
        simp only [setFirst, if_neg he, List.lookup, h1]
        exact ih (by simpa [hasKey] using h)

/-- After the nerf, the wild entry of the adjusted map is exactly 1. -/
lemma applyNerf_lookup_wild (d : Dist) (hw : hasKey d "wild" = true)
    (ho : hasKey d "orange" = true) :
    (applyNerf d).lookup "wild" = some 1 := by
  rw [applyNerf, if_pos hw, nerf_weight_one]
  simp only
  rw [if_pos (by rw [hasKey_setFirst]; exact ho)]
  rw [lookup_updateAdd_ne _ _ _ _ (by decide)]
  exact lookup_setFirst_eq d "wild" 1 hw

/-- After the nerf, the filler entry receives the removed wild weight. -/
lemma applyNerf_lookup_orange (d : Dist) (hw : hasKey d "wild" = true)
    (ho : hasKey d "orange" = true) :
    (applyNerf d).lookup "orange" =
      some ((d.lookup "orange").getD 0 + ((d.lookup "wild").getD 0 - 1)) := by
  rw [applyNerf, if_pos hw, nerf_weight_one]
  simp only
  rw [if_pos (by rw [hasKey_setFirst]; exact ho)]
  rw [lookup_updateAdd_eq _ _ _ (by rw [hasKey_setFirst]; exact ho)]
  rw [lookup_setFirst_ne _ _ _ _ (by decide)]

/-- Concrete facts about each classic reel distribution: wild weight 30,
an `"orange"` entry present, and weight sum 1000. -/
lemma classic_facts (c : Fin 4) :
    (CLASSIC_REEL_DISTRIBUTIONS c).lookup "wild" = some 30 ∧
    hasKey (CLASSIC_REEL_DISTRIBUTIONS c) "orange" = true ∧
    wsum (CLASSIC_REEL_DISTRIBUTIONS c) = 1000 := by
  fin_cases c
  · refine ⟨?_, ?_, ?_⟩
    · show List.lookup "wild" (CLASSIC_REEL_DISTRIBUTIONS 0) = some 30
      rw [classicDist_0]
      decide
    · show hasKey (CLASSIC_REEL_DISTRIBUTIONS 0) "orange" = true
      rw [classicDist_0]
      decide
    · show wsum (CLASSIC_REEL_DISTRIBUTIONS 0) = 1000
      rw [classicDist_0]
      decide
  · refine ⟨?_, ?_, ?_⟩
    · show List.lookup "wild" (CLASSIC_REEL_DISTRIBUTIONS 1) = some 30
      rw [classicDist_1]
      decide
    · show hasKey (CLASSIC_REEL_DISTRIBUTIONS 1) "orange" = true
      rw [classicDist_1]
      decide
    · show wsum (CLASSIC_REEL_DISTRIBUTIONS 1) = 1000
      rw [classicDist_1]
      decide
  · refine ⟨?_, ?_, ?_⟩
    · show List.lookup "wild" (CLASSIC_REEL_DISTRIBUTIONS 2) = some 30
      rw [classicDist_2]
      decide
    · show hasKey (CLASSIC_REEL_DISTRIBUTIONS 2) "orange" = true
      rw [classicDist_2]
      decide
    · show wsum (CLASSIC_REEL_DISTRIBUTIONS 2) = 1000
      rw [classicDist_2]
      decide
  · refine ⟨?_, ?_, ?_⟩
    · show List.lookup "wild" (CLASSIC_REEL_DISTRIBUTIONS 3) = some 30
      rw [classicDist_3]
      decide
    · show hasKey (CLASSIC_REEL_DISTRIBUTIONS 3) "orange" = true
      rw [classicDist_3]
      decide
    · show wsum (CLASSIC_REEL_DISTRIBUTIONS 3) = 1000
      rw [classicDist_3]
      decide

/-- The weight map actually used for reel `c` when reel `n` is nerfed. -/
lemma distUsed_classic (n c : Fin 4) :
    distUsed classicStore n.val c.val =
      if c = n then applyNerf (CLASSIC_REEL_DISTRIBUTIONS c)
      else CLASSIC_REEL_DISTRIBUTIONS c := by
  fin_cases n <;> fin_cases c <;>
    simp [distUsed, classicStore, List.lookup]

/-- C7: with reel `n` nerfed, the weight map used for reel `c` has wild
weight 1 when `c = n` (0.1% of 1000) and the base 30 (3%) otherwise;
the removed weight (29) is added onto `"orange"` on the nerfed reel
only; the used map still sums to 1000. -/
theorem C7_wild_nerf (n c : Fin 4) :
    (distUsed classicStore n.val c.val).lookup "wild" =
      some (if c = n then 1 else 30) ∧
    (distUsed classicStore n.val c.val).lookup "orange" =
      some (((CLASSIC_REEL_DISTRIBUTIONS c).lookup "orange").getD 0 +
        (if c = n then 29 else 0)) ∧
    wsum (distUsed classicStore n.val c.val) = 1000 := by
  obtain ⟨hwild, horange, hsum⟩ := classic_facts c
  have hw : hasKey (CLASSIC_REEL_DISTRIBUTIONS c) "wild" = true := by
    rw [hasKey, hwild]
    rfl
  rw [distUsed_classic n c]
  by_cases h : c = n
  · rw [if_pos h, if_pos h, if_pos h]
    refine ⟨applyNerf_lookup_wild _ hw horange, ?_, ?_⟩
    · rw [applyNerf_lookup_orange _ hw horange, hwild]
      norm_num
    · rw [wsum_applyNerf]
      exact hsum
  · rw [if_neg h, if_neg h, if_neg h]
    refine ⟨hwild, ?_, hsum⟩
    have ho2 : (List.lookup "orange"
        (CLASSIC_REEL_DISTRIBUTIONS c)).isSome = true := by
      rw [hasKey] at horange
      exact horange
    rcases Option.isSome_iff_exists.mp ho2 with ⟨v, hv⟩
    rw [hv]
    simp

/-! ## Concrete spins used as witnesses -/

/-- A grid whose top row is `cherry cherry cherry lemon` (spec scenario:
one non-matching symbol voids the win), filler elsewhere. -/
def gridCherryLemon : Grid := fun r c =>
  if r = 0 then (if c = 3 then "lemon" else "cherry") else "orange"

/-- A grid whose top row is four cherries and whose other rows alternate
filler symbols so that no other line wins. -/
def gridCherryRow : Grid := fun r c =>
  if r = 0 then "cherry"
  else if (r.val + c.val) % 2 = 0 then "orange" else "lemon"

/-- A grid whose top row is four diamonds (multiplier 1000), no other
winning line. -/
def gridDiamondRow : Grid := fun r c =>
  if r = 0 then "diamond"
  else if (r.val + c.val) % 2 = 0 then "orange" else "lemon"

/-- The winning payline produced by `validate_all_paylines` on
`gridCherryRow` with line 1 active. -/
def wpCherryRaw : WinningPayline :=
  { line_number := 1, line_path := [(0, 0), (0, 1), (0, 2), (0, 3)]
    symbol := "cherry", match_count := 4, multiplier := 57
    line_type := "vertical" }

/-- The same winning payline after `calculate_slot_result` records its
payout at `bet_per_line = 1`. -/
def wpCherry : WinningPayline :=
  { wpCherryRaw with payout := round2 ((1 : ℚ) * 57) }

theorem C1_payline_win_iff_witness :
    PAYLINES_4x4 1 = some [(0, 0), (0, 1), (0, 2), (0, 3)] ∧
    (∀ r c : Fin 4, gridCherryLemon r c ∈ classicNames) ∧
    ((check_payline_win gridCherryLemon [(0, 0), (0, 1), (0, 2), (0, 3)]
        CLASSIC_SYMBOLS).isSome = true ↔
      specLineWins gridCherryLemon [(0, 0), (0, 1), (0, 2), (0, 3)]
        CLASSIC_SYMBOLS) :=
  ⟨rfl, by decide, C1_payline_win_iff gridCherryLemon 1 _ rfl (by decide)⟩

theorem C9_winning_payline_shape_witness :
    wpCherryRaw ∈ validate_all_paylines gridCherryRow [1] CLASSIC_SYMBOLS ∧
    (wpCherryRaw.match_count = 4 ∧
     PAYLINES_4x4 wpCherryRaw.line_number = some wpCherryRaw.line_path ∧
     wpCherryRaw.line_path.length = 4 ∧
     1 ≤ wpCherryRaw.line_number ∧ wpCherryRaw.line_number ≤ 8) := by
  have e : validate_all_paylines gridCherryRow [1] CLASSIC_SYMBOLS =
      [wpCherryRaw] := rfl
  have hmem : wpCherryRaw ∈
      validate_all_paylines gridCherryRow [1] CLASSIC_SYMBOLS := by
    rw [e]
    exact List.mem_singleton.mpr rfl
  exact ⟨hmem, C9_winning_payline_shape gridCherryRow [1] wpCherryRaw hmem⟩

theorem C3_payout_witness :
    wpCherry ∈ (calculate_slot_result 1 [1] gridCherryRow
      CLASSIC_SYMBOLS).winning_paylines ∧
    (wpCherry.payout = round2 (1 * wpCherry.multiplier) ∧
     wpCherry.multiplier = getMult CLASSIC_SYMBOLS wpCherry.symbol) := by
  have e : (calculate_slot_result 1 [1] gridCherryRow
      CLASSIC_SYMBOLS).winning_paylines = [wpCherry] := rfl
  have hmem : wpCherry ∈ (calculate_slot_result 1 [1] gridCherryRow
      CLASSIC_SYMBOLS).winning_paylines := by
    rw [e]
    exact List.mem_singleton.mpr rfl
  exact ⟨hmem, C3_payout 1 [1] gridCherryRow wpCherry hmem⟩

theorem C4_weight_sum_witness :
    "orange" ∈ CLASSIC_SYMBOL_CONFIG.map (fun e => e.1) ∧
    (wsum (build_reel_distributions CLASSIC_SYMBOL_CONFIG 0) = 1000 ∧
     wsum (applyNerf (build_reel_distributions CLASSIC_SYMBOL_CONFIG 0)) =
       1000) :=
  ⟨by decide, C4_weight_sum CLASSIC_SYMBOL_CONFIG (by decide) 0⟩

/-- The classic table's row for `"cherry"`. -/
def cherryCfg : SymCfg :=
  { mult := 57, tier := "uncommon", r0 := 18, r1 := 16, r2 := 14, r3 := 12 }

theorem C5_raw_weight_floor_witness :
    List.lookup "cherry" CLASSIC_SYMBOL_CONFIG = some cherryCfg ∧
    (0 : ℚ) ≤ pctOf cherryCfg 0 ∧
    List.lookup "cherry" (rawDist CLASSIC_SYMBOL_CONFIG 0) =
      some ⌊pctOf cherryCfg (0 : Fin 4) * 10⌋ :=
  ⟨rfl, by norm_num [pctOf, cherryCfg],
    C5_raw_weight_floor CLASSIC_SYMBOL_CONFIG "cherry" cherryCfg 0 rfl
      (by norm_num [pctOf, cherryCfg])⟩

/-- Stop positions all at slot 0 (a concrete draw of the RNG). -/
def stops0 : ℕ → Fin 1000 := fun _ => 0

/-- The identity shuffle on every reel (a concrete draw of the RNG). -/
def perm1 : ℕ → Equiv.Perm (Fin 1000) := fun _ => 1

theorem C6_grid_from_strips_witness :
    classicStore ≠ [] ∧ (0 : ℕ) < 4 ∧
    ((((generate_random_grid_with_wild_nerf CLASSIC_SYMBOLS 4 4 classicStore
        0 perm1 stops0 (fun _ _ => "orange")).1.getD 0 []).getD 0 "") =
      (reelStrip classicStore 0 perm1 0).getD
        (((stops0 0).val + 0) %
          (reelStrip classicStore 0 perm1 0).length) "" ∧
     (reelStrip classicStore 0 perm1 0).length = 1000) :=
  ⟨List.cons_ne_nil _ _, Nat.succ_pos 3,
    C6_grid_from_strips CLASSIC_SYMBOLS 4 4 classicStore 0 perm1 stops0
      (fun _ _ => "orange") (List.cons_ne_nil _ _) 0 0
      (Nat.succ_pos 3) (Nat.succ_pos 3)⟩

theorem C2_spin_totals_witness :
    ((0 : ℚ) < 1/20 ∧ ([1, 2, 3, 4, 5, 6, 7, 8] : List ℕ) ≠ [] ∧
      (∀ n ∈ ([1, 2, 3, 4, 5, 6, 7, 8] : List ℕ),
        (PAYLINES_4x4 n).isSome = true)) ∧
    (calculate_slot_result (1/20) [1, 2, 3, 4, 5, 6, 7, 8] gridDiamondRow
        CLASSIC_SYMBOLS).total_bet =
      round2 ((1/20 : ℚ) *
        (([1, 2, 3, 4, 5, 6, 7, 8] : List ℕ).length : ℚ)) ∧
    ((calculate_slot_result (1/20) [1, 2, 3, 4, 5, 6, 7, 8] gridDiamondRow
        CLASSIC_SYMBOLS).is_jackpot = true ↔
      (calculate_slot_result (1/20) [1, 2, 3, 4, 5, 6, 7, 8] gridDiamondRow
        CLASSIC_SYMBOLS).win_amount ≥
        20 * (calculate_slot_result (1/20) [1, 2, 3, 4, 5, 6, 7, 8]
          gridDiamondRow CLASSIC_SYMBOLS).total_bet) ∧
    (calculate_slot_result (1/20) [1, 2, 3, 4, 5, 6, 7, 8] gridDiamondRow
        CLASSIC_SYMBOLS).win_amount = 50 ∧
    (calculate_slot_result (1/20) [1, 2, 3, 4, 5, 6, 7, 8] gridDiamondRow
        CLASSIC_SYMBOLS).total_bet = 2/5 ∧
    (calculate_slot_result (1/20) [1, 2, 3, 4, 5, 6, 7, 8] gridDiamondRow
        CLASSIC_SYMBOLS).is_jackpot = true := by
  have big := C2_spin_totals (1/20) (by norm_num) [1, 2, 3, 4, 5, 6, 7, 8]
    (by decide) (by decide) gridDiamondRow
  have hwin : (calculate_slot_result (1/20) [1, 2, 3, 4, 5, 6, 7, 8]
      gridDiamondRow CLASSIC_SYMBOLS).win_amount = 50 := by
    have e : (calculate_slot_result (1/20) [1, 2, 3, 4, 5, 6, 7, 8]
        gridDiamondRow CLASSIC_SYMBOLS).win_amount =
        round2 (round2 ((1/20 : ℚ) * 1000) + 0) := rfl
    have h1 : round2 ((1/20 : ℚ) * 1000) = 50 := by
      rw [round2, show (1/20 : ℚ) * 1000 * 100 = ((5000 : ℤ) : ℚ) by
        norm_num, round_intCast]
      norm_num
    rw [e, h1, round2, show ((50 : ℚ) + 0) * 100 = ((5000 : ℤ) : ℚ) by
      norm_num, round_intCast]
    norm_num
  have htb : (calculate_slot_result (1/20) [1, 2, 3, 4, 5, 6, 7, 8]
      gridDiamondRow CLASSIC_SYMBOLS).total_bet = 2/5 := by
    have e : (calculate_slot_result (1/20) [1, 2, 3, 4, 5, 6, 7, 8]
        gridDiamondRow CLASSIC_SYMBOLS).total_bet =
        round2 ((1/20 : ℚ) * ((8 : ℕ) : ℚ)) := rfl
    rw [e, round2, show (1/20 : ℚ) * ((8 : ℕ) : ℚ) * 100 =
      ((40 : ℤ) : ℚ) by norm_num, round_intCast]
    norm_num
  refine ⟨⟨by norm_num, by decide, by decide⟩, big.1, big.2.2.2, hwin, htb,
    ?_⟩
  apply big.2.2.2.mpr
  rw [hwin, htb]
  norm_num

end Goladium
